import Mathlib

/-!
Verification of a minimal command-line HTTP client (a thin curl-like
front-end).  The program parses an option record (URL, method, form data,
JSON body), validates the URL scheme, parses the URL, probes host
resolution, issues at most one HTTP request, and renders the response
body (pretty-printed with sorted top-level keys when the body is a JSON
object, trimmed raw text otherwise).

The embedding below is a shallow model of `src/main.rs`.  External
collaborators (the URL parser, the socket resolver, the JSON codec and
the HTTP client) are modelled as oracle fields of an `Ext` record; the
logic of the program itself is translated function by function.  Strings are
Lean `String`s; the byte-level splitting of form data is modelled on
`List Char` (codepoint lists), which for valid UTF-8 agrees with the
byte-level behaviour of the source. Whitespace is modelled by
`Char.isWhitespace` (space, tab, carriage return, newline), covering
the whitespace classes the specification mentions.
-/

namespace Curl

/-- Codepoint-list model of a Rust string slice. -/
abbrev Str := List Char

/-- Rust `str::split` with a single-character separator: empty input
yields one empty token, adjacent separators yield empty tokens, and the
token list always has one more element than the number of separators. -/
def splitChar (sep : Char) : Str → List Str
  | [] => [[]]
  | c :: cs =>
    let rest := splitChar sep cs
    if c = sep then
      [] :: rest
    else
      match rest with
      | r :: rs => (c :: r) :: rs
      | [] => [[c]]

/-- One iteration of the form-pair loop (`main.rs` lines 86-90): split
the token on `=`, take `next()` twice.  The first `next()` always
succeeds (a split is never empty); the second `unwrap()` panics when the
token contains no `=`, modelled as `none`.  Note that the value is the
fragment strictly between the first and the second `=`, not the whole
remainder of the token. -/
def tokenPair (tok : Str) : Option (Str × Str) :=
  match splitChar '=' tok with
  | k :: v :: _ => some (k, v)
  | _ => none

/-- The body of the form-pair planning loop: fold over the tokens in
order, failing (panicking) at the first token without `=`. -/
def formPairsLoop : List Str → Option (List (Str × Str))
  | [] => some []
  | t :: ts =>
    match tokenPair t, formPairsLoop ts with
    | some p, some ps => some (p :: ps)
    | _, _ => none

/-- The form-pair planning loop of `main.rs` lines 85-91: split `data`
on `&` and turn each token into a `(key, value)` pair, in order.  `none`
models the `unwrap` panic on a token without `=`. -/
def buildFormPairs (data : Str) : Option (List (Str × Str)) :=
  formPairsLoop (splitChar '&' data)

/-- `main.rs` line 27: the effective method is `"POST"` whenever
`--json` is present, and otherwise the raw `-X`/`--request` string,
verbatim. -/
def effectiveMethod (json : Option String) (method : String) : String :=
  if json.isSome then "POST" else method

/-- Rust `str::starts_with`, on the codepoint model. -/
def strStartsWith (s p : String) : Bool :=
  p.data.isPrefixOf s.data

/-- Substring containment on codepoint lists. -/
def listContainsSub : Str → Str → Bool
  | s, pat =>
    pat.isPrefixOf s ||
      match s with
      | [] => false
      | _ :: t => listContainsSub t pat

/-- Rust `str::contains` (substring containment), on the codepoint
model. -/
def strContainsSub (s pat : String) : Bool :=
  listContainsSub s.data pat.data

/-- Rust `str::trim_end`: remove trailing whitespace. -/
def rustTrimEnd (s : String) : String :=
  ⟨List.rdropWhile Char.isWhitespace s.data⟩

/-- Generic JSON value, the model of `serde_json::Value`.  Numbers are
collapsed to `Int`: no claim depends on number semantics. -/
inductive Json where
  | obj (fields : List (String × Json))
  | arr (elems : List Json)
  | str (s : String)
  | num (n : Int)
  | bool (b : Bool)
  | null

/-- `map[key]` on the model of `serde_json::Map` (an association list
with unique keys): the value of the first entry with the given key,
defaulting to `null` (the source only indexes with keys taken from the
map itself, so the default is never reached there). -/
def mapIndex (fields : List (String × Json)) (k : String) : Json :=
  (fields.lookup k).getD Json.null

/-- `main.rs` lines 107-114: the sorted object handed to the pretty
printer.  If the parsed body is an object, collect its keys, sort them,
and re-insert each key with its original value; otherwise the object
stays empty. -/
def sortedTopLevel (j : Json) : List (String × Json) :=
  match j with
  | Json.obj fields =>
    let keys := List.insertionSort (fun a b => a ≤ b) (fields.map Prod.fst)
    keys.map (fun k => (k, mapIndex fields k))
  | _ => []

/-- The option record produced by the argument parser
(`main.rs` lines 9-22). -/
structure Opt where
  url : String
  method : String
  data : Option String
  json : Option String
deriving DecidableEq

/-- The components of a parsed URL that the program consults:
`Url::host_str()` and `Url::port()` (`main.rs` lines 61-62). -/
structure UrlRec where
  host : Option String
  port : Option Nat
deriving DecidableEq

/-- An HTTP response: status code and body text. -/
structure Response where
  status : Nat
  body : String
deriving DecidableEq

/-- The request handed to the HTTP client: GET, POST with form pairs, or
POST with an explicit content type and raw body. -/
inductive RequestShape where
  | get (url : String)
  | postForm (url : String) (pairs : List (Str × Str))
  | postJson (url : String) (contentType : String) (body : String)
deriving DecidableEq

/-- Observable events of one invocation: a line printed to standard
output, the three validation stages succeeding, and an HTTP request
being issued. -/
inductive Ev where
  | out (line : String)
  | schemeOk
  | urlParseOk
  | resolveProbe (addr : String)
  | httpRequest (r : RequestShape)
deriving DecidableEq

/-- How the process terminates: `std::process::exit(code)`, an explicit
`panic!` with a message, the `Option::unwrap()`-on-`None` panic,
`main` returning `Err(e)` (which the runtime surfaces as an abnormal
error termination), or `main` returning `Ok(())` (exit code 0). -/
inductive Outcome where
  | exit (code : Nat)
  | panic (msg : String)
  | panicUnwrapNone
  | errReturn (msg : String)
  | success
deriving DecidableEq

/-- Oracles for the external collaborators: `Url::parse` (the error case
carries the display text of the error), `ToSocketAddrs` success keyed by the
`host:port` string, `serde_json::from_str::<Value>` (used both on the
`--json` argument and on the response body), the blocking HTTP client
(send plus `text()`, collapsed into one fallible call returning status
and body), and `serde_json::to_string_pretty` on the sorted map. -/
structure Ext where
  parseUrl : String → Except String UrlRec
  resolves : String → Bool
  parseJson : String → Except String Json
  send : RequestShape → Except String Response
  pretty : List (String × Json) → Except String String

/-- `main.rs` lines 47-56: classification of a URL-parse error by
substring matching on the display text of the error. -/
def classifyUrlError (e : String) : String :=
  if strContainsSub e "invalid IPv6 address" then
    "Error: The URL contains an invalid IPv6 address."
  else if strContainsSub e "invalid IPv4 address" then
    "Error: The URL contains an invalid IPv4 address."
  else if strContainsSub e "invalid port number" then
    "Error: The URL contains an invalid port number."
  else
    "Error: " ++ e

/-- `main.rs` lines 105-123: render the response body.  If it parses as
JSON, pretty-print the (shallowly) key-sorted top-level object — on a
pretty-printing error, print a diagnostic and exit 1; if it does not
parse, print the body with trailing whitespace trimmed. -/
def renderBody (ext : Ext) (body : String) : List Ev × Outcome :=
  match ext.parseJson body with
  | Except.ok j =>
    match ext.pretty (sortedTopLevel j) with
    | Except.error e =>
      ([Ev.out ("Error: Failed to format JSON: " ++ e)], Outcome.exit 1)
    | Except.ok s =>
      ([Ev.out ("Response body (JSON with sorted keys):\n" ++ s)], Outcome.success)
  | Except.error _ =>
    ([Ev.out ("Response body:\n" ++ rustTrimEnd body)], Outcome.success)

/-- `main.rs` lines 100-123: after a response is received, reject a
non-2xx status (print the diagnostic, exit 1, body not rendered), and
otherwise render the body.  `StatusCode::is_success` is the range
200..=299. -/
def handleResponse (ext : Ext) (resp : Response) : List Ev × Outcome :=
  if ¬ (200 ≤ resp.status ∧ resp.status < 300) then
    ([Ev.out ("Error: Request failed with status code: " ++ toString resp.status ++ ".")],
      Outcome.exit 1)
  else
    renderBody ext resp.body

/-- Issue the request through the HTTP client; a transport error
propagates out of `main` via `?` (abnormal error termination), a
received response is handled by `handleResponse`. -/
def sendAndHandle (ext : Ext) (req : RequestShape) : List Ev × Outcome :=
  match ext.send req with
  | Except.error e => ([Ev.httpRequest req], Outcome.errReturn e)
  | Except.ok resp =>
    (Ev.httpRequest req :: (handleResponse ext resp).1, (handleResponse ext resp).2)

/-- `main.rs` lines 71-99: request-shape selection and dispatch.  With
`--json`: validate the argument with the JSON codec — on failure panic
with `Invalid JSON: Error("<detail>")` — then POST the original text
with an explicit `Content-Type: application/json` header.  Otherwise,
if the effective method is exactly `"POST"`: require `--data`, build
the form pairs (the `unwrap` panic surfaces as `panicUnwrapNone`), and
POST them.  Otherwise issue a GET. -/
def planAndSend (ext : Ext) (o : Opt) : List Ev × Outcome :=
  match o.json with
  | some jd =>
    match ext.parseJson jd with
    | Except.error e =>
      ([], Outcome.panic ("Invalid JSON: Error(\"" ++ e ++ "\")"))
    | Except.ok _ =>
      sendAndHandle ext (RequestShape.postJson o.url "application/json" jd)
  | none =>
    -- In the source the guard compares the let-bound `method`, which in
    -- this branch (no `--json`) is the raw `opt.method`.
    if o.method == "POST" then
      match o.data with
      | some d =>
        match buildFormPairs d.data with
        | none => ([], Outcome.panicUnwrapNone)
        | some ps => sendAndHandle ext (RequestShape.postForm o.url ps)
      | none =>
        ([Ev.out "Error: POST method requires data to be specified with -d."],
          Outcome.exit 1)
    else
      sendAndHandle ext (RequestShape.get o.url)

/-- The echo lines printed before any validation
(`main.rs` lines 31-38). -/
def preLines (o : Opt) : List Ev :=
  [Ev.out ("Requesting URL: " ++ o.url),
   Ev.out ("Method: " ++ effectiveMethod o.json o.method)]
  ++ (match o.data with | some d => [Ev.out ("Data: " ++ d)] | none => [])
  ++ (match o.json with | some j => [Ev.out ("JSON: " ++ j)] | none => [])

/-- The whole of `main` after argument parsing: echo lines, scheme
guard, URL parse with error classification, host-resolution probe
(port defaulting to 80 when the URL carries none), then request
planning, dispatch and response rendering.  Returns the event trace and
the termination outcome. -/
def run (ext : Ext) (o : Opt) : List Ev × Outcome :=
  let pre := preLines o
  if !(strStartsWith o.url "http://") && !(strStartsWith o.url "https://") then
    (pre ++ [Ev.out "Error: The URL does not have a valid base protocol."], Outcome.exit 1)
  else
    match ext.parseUrl o.url with
    | Except.error e =>
      (pre ++ [Ev.schemeOk, Ev.out (classifyUrlError e)], Outcome.exit 1)
    | Except.ok u =>
      let t1 := pre ++ [Ev.schemeOk, Ev.urlParseOk]
      match u.host with
      | some h =>
        let addr := h ++ ":" ++ toString (u.port.getD 80)
        if ext.resolves addr then
          let p := planAndSend ext o
          (t1 ++ [Ev.resolveProbe addr] ++ p.1, p.2)
        else
          (t1 ++ [Ev.resolveProbe addr,
            Ev.out "Error: Unable to connect to the server. Perhaps the network is offline or the server hostname cannot be resolved."],
            Outcome.exit 1)
      | none =>
        let p := planAndSend ext o
        (t1 ++ p.1, p.2)

/-- Is this event one of the validation/request markers (everything but
a printed line)? -/
def isMarker : Ev → Bool
  | Ev.out _ => false
  | _ => true

/-- The validation/request markers of a trace, in order. -/
def markers (t : List Ev) : List Ev :=
  t.filter isMarker

/-- The HTTP requests issued in a trace, in order. -/
def requestsOf (t : List Ev) : List RequestShape :=
  t.filterMap (fun e => match e with | Ev.httpRequest r => some r | _ => none)

/-- The HTTP requests issued by one invocation. -/
def runRequests (ext : Ext) (o : Opt) : List RequestShape :=
  requestsOf (run ext o).1

/-! ### Properties of the splitting primitives -/

theorem splitChar_ne_nil (sep : Char) (l : Str) : splitChar sep l ≠ [] := by
  cases l with
  | nil => simp [splitChar]
  | cons c cs =>
    simp only [splitChar]
    by_cases h : c = sep
    · simp [h]
    · simp only [if_neg h]
      cases hr : splitChar sep cs with
      | nil => simp
      | cons r rs => simp

theorem splitChar_head (sep : Char) (l : Str) :
    ∃ rs, splitChar sep l = l.takeWhile (fun c => !(c == sep)) :: rs := by
  induction l with
  | nil => exact ⟨[], rfl⟩
  | cons c cs ih =>
    by_cases h : c = sep
    · subst h
      refine ⟨splitChar c cs, ?_⟩
      simp [splitChar, List.takeWhile]
    · obtain ⟨rs, hrs⟩ := ih
      refine ⟨rs, ?_⟩
      have hb : (c == sep) = false := by simp [h]
      simp only [splitChar, if_neg h, hrs]
      simp [List.takeWhile, hb]

theorem splitChar_of_not_mem {sep : Char} {l : Str} (h : sep ∉ l) :
    splitChar sep l = [l] := by
  induction l with
  | nil => rfl
  | cons c cs ih =>
    have hc : ¬ c = sep := fun he => h (he ▸ List.mem_cons_self c cs)
    have hcs : sep ∉ cs := fun hm => h (List.mem_cons_of_mem _ hm)
    simp only [splitChar, if_neg hc, ih hcs]

theorem splitChar_of_mem {sep : Char} {l : Str} (h : sep ∈ l) :
    splitChar sep l =
      l.takeWhile (fun c => !(c == sep)) ::
        splitChar sep ((l.dropWhile (fun c => !(c == sep))).tail) := by
  induction l with
  | nil => cases h
  | cons c cs ih =>
    by_cases hc : c = sep
    · subst hc
      simp [splitChar, List.takeWhile, List.dropWhile]
    · have hcs : sep ∈ cs := by
        rcases List.mem_cons.mp h with h1 | h2
        · exact absurd h1.symm hc
        · exact h2
      have hb : (c == sep) = false := by simp [hc]
      simp only [splitChar, if_neg hc, ih hcs]
      simp [List.takeWhile, List.dropWhile, hb]

theorem one_lt_length_splitChar_iff {sep : Char} {l : Str} :
    1 < (splitChar sep l).length ↔ sep ∈ l := by
  constructor
  · intro h
    by_contra hm
    rw [splitChar_of_not_mem hm] at h
    simp at h
  · intro h
    rw [splitChar_of_mem h]
    have := splitChar_ne_nil sep ((l.dropWhile (fun c => !(c == sep))).tail)
    cases hr : splitChar sep ((l.dropWhile (fun c => !(c == sep))).tail) with
    | nil => exact absurd hr this
    | cons r rs => simp [hr]

theorem tokenPair_eq_none_iff {tok : Str} : tokenPair tok = none ↔ '=' ∉ tok := by
  unfold tokenPair
  constructor
  · intro h hm
    rw [splitChar_of_mem hm] at h
    have := splitChar_ne_nil '=' ((tok.dropWhile (fun c => !(c == '='))).tail)
    cases hr : splitChar '=' ((tok.dropWhile (fun c => !(c == '='))).tail) with
    | nil => exact absurd hr this
    | cons r rs => rw [hr] at h; simp at h
  · intro hm
    rw [splitChar_of_not_mem hm]

theorem tokenPair_of_mem {tok : Str} (h : '=' ∈ tok) :
    tokenPair tok =
      some (tok.takeWhile (fun c => !(c == '=')),
        ((tok.dropWhile (fun c => !(c == '='))).tail).takeWhile (fun c => !(c == '='))) := by
  unfold tokenPair
  rw [splitChar_of_mem h]
  obtain ⟨rs, hrs⟩ := splitChar_head '=' ((tok.dropWhile (fun c => !(c == '='))).tail)
  rw [hrs]

/-- The pair the loop produces from one token: the fragment before the
first `=` and the fragment strictly between the first and second `=`. -/
def firstTwoFragments (tok : Str) : Str × Str :=
  (tok.takeWhile (fun c => !(c == '=')),
    ((tok.dropWhile (fun c => !(c == '='))).tail).takeWhile (fun c => !(c == '=')))

theorem formPairsLoop_isSome_iff {ts : List Str} :
    (formPairsLoop ts).isSome ↔ ∀ t ∈ ts, '=' ∈ t := by
  induction ts with
  | nil => simp [formPairsLoop]
  | cons t ts ih =>
    simp only [formPairsLoop, List.mem_cons]
    constructor
    · intro h
      cases hp : tokenPair t with
      | none => rw [hp] at h; simp at h
      | some p =>
        cases hl : formPairsLoop ts with
        | none => rw [hp, hl] at h; simp at h
        | some ps =>
          intro x hx
          rcases hx with hx | hx
          · subst hx
            by_contra hm
            rw [tokenPair_eq_none_iff.mpr hm] at hp
            cases hp
          · exact (ih.mp (by rw [hl]; rfl)) x hx
    · intro h
      have hp : tokenPair t ≠ none := fun he =>
        (tokenPair_eq_none_iff.mp he) (h t (Or.inl rfl))
      cases hpv : tokenPair t with
      | none => exact absurd hpv hp
      | some p =>
        have hl : (formPairsLoop ts).isSome := ih.mpr (fun x hx => h x (Or.inr hx))
        cases hlv : formPairsLoop ts with
        | none => rw [hlv] at hl; cases hl
        | some ps => simp

theorem formPairsLoop_of_all {ts : List Str} (h : ∀ t ∈ ts, '=' ∈ t) :
    formPairsLoop ts = some (ts.map firstTwoFragments) := by
  induction ts with
  | nil => rfl
  | cons t ts ih =>
    have ht := tokenPair_of_mem (h t (List.mem_cons_self t ts))
    have hts := ih (fun x hx => h x (List.mem_cons_of_mem _ hx))
    simp only [formPairsLoop, ht, hts, List.map_cons]
    rfl

theorem buildFormPairs_isSome_iff {d : Str} :
    (buildFormPairs d).isSome ↔ ∀ t ∈ splitChar '&' d, '=' ∈ t := by
  unfold buildFormPairs
  exact formPairsLoop_isSome_iff

theorem buildFormPairs_of_all {d : Str} (h : ∀ t ∈ splitChar '&' d, '=' ∈ t) :
    buildFormPairs d = some ((splitChar '&' d).map firstTwoFragments) := by
  unfold buildFormPairs
  exact formPairsLoop_of_all h

/-! ### Properties of the sorted-object construction -/

theorem map_fst_keyLookup (fields : List (String × Json)) (ks : List String) :
    (ks.map (fun k => (k, mapIndex fields k))).map Prod.fst = ks := by
  induction ks with
  | nil => rfl
  | cons k ks ih => simp only [List.map_cons, ih]

theorem keyLookup_map_eq_self {fields : List (String × Json)}
    (hnd : (fields.map Prod.fst).Nodup) :
    (fields.map Prod.fst).map (fun k => (k, mapIndex fields k)) = fields := by
  induction fields with
  | nil => rfl
  | cons p rest ih =>
    obtain ⟨k0, v0⟩ := p
    simp only [List.map_cons, List.nodup_cons] at hnd
    obtain ⟨hk0, hrest⟩ := hnd
    simp only [List.map_cons]
    have hhead : mapIndex ((k0, v0) :: rest) k0 = v0 := by
      simp [mapIndex, List.lookup]
    have hcongr :
        (rest.map Prod.fst).map (fun k => (k, mapIndex ((k0, v0) :: rest) k)) =
          (rest.map Prod.fst).map (fun k => (k, mapIndex rest k)) := by
      apply List.map_congr_left
      intro k hk
      have hne : (k == k0) = false := by
        simp only [beq_eq_false_iff_ne]
        intro he
        exact hk0 (he ▸ hk)
      simp [mapIndex, List.lookup, hne]
    rw [hhead, hcongr, ih hrest]

theorem sortedTopLevel_perm {fields : List (String × Json)}
    (hnd : (fields.map Prod.fst).Nodup) :
    (sortedTopLevel (Json.obj fields)).Perm fields := by
  show ((List.insertionSort (fun a b => a ≤ b) (fields.map Prod.fst)).map
      (fun k => (k, mapIndex fields k))).Perm fields
  have hperm : (List.insertionSort (fun a b => a ≤ b) (fields.map Prod.fst)).Perm
      (fields.map Prod.fst) := List.perm_insertionSort _ _
  have h1 := hperm.map (fun k => (k, mapIndex fields k))
  rw [keyLookup_map_eq_self hnd] at h1
  exact h1

theorem sortedTopLevel_keys_sorted {fields : List (String × Json)}
    (hnd : (fields.map Prod.fst).Nodup) :
    ((sortedTopLevel (Json.obj fields)).map Prod.fst).Sorted (· < ·) := by
  show (((List.insertionSort (fun a b => a ≤ b) (fields.map Prod.fst)).map
      (fun k => (k, mapIndex fields k))).map Prod.fst).Sorted (· < ·)
  rw [map_fst_keyLookup]
  have hle : (List.insertionSort (fun a b => a ≤ b) (fields.map Prod.fst)).Sorted
      (fun a b => a ≤ b) := List.sorted_insertionSort _ _
  have hnd' : (List.insertionSort (fun a b => a ≤ b) (fields.map Prod.fst)).Nodup :=
    (List.perm_insertionSort _ _).nodup_iff.mpr hnd
  exact List.Sorted.lt_of_le hle hnd'

theorem sortedTopLevel_non_obj (j : Json) (h : ∀ f, j ≠ Json.obj f) :
    sortedTopLevel j = [] := by
  cases j with
  | obj f => exact absurd rfl (h f)
  | arr e => rfl
  | str s => rfl
  | num n => rfl
  | bool b => rfl
  | null => rfl

/-! ### Trace bookkeeping -/

theorem markers_append (a b : List Ev) : markers (a ++ b) = markers a ++ markers b := by
  simp [markers, List.filter_append]

theorem requestsOf_append (a b : List Ev) :
    requestsOf (a ++ b) = requestsOf a ++ requestsOf b := by
  simp [requestsOf, List.filterMap_append]

theorem markers_preLines (o : Opt) : markers (preLines o) = [] := by
  unfold preLines markers
  cases o.data <;> cases o.json <;> simp [isMarker]

theorem requestsOf_preLines (o : Opt) : requestsOf (preLines o) = [] := by
  unfold preLines requestsOf
  cases o.data <;> cases o.json <;> simp


theorem handleResponse_trace (ext : Ext) (resp : Response) :
    markers (handleResponse ext resp).1 = [] ∧
    requestsOf (handleResponse ext resp).1 = [] := by
  by_cases h : 200 ≤ resp.status ∧ resp.status < 300
  · cases hpj : ext.parseJson resp.body with
    | ok j =>
      cases hp : ext.pretty (sortedTopLevel j) with
      | ok s => simp [handleResponse, renderBody, h, hpj, hp, markers, requestsOf, isMarker]
      | error e => simp [handleResponse, renderBody, h, hpj, hp, markers, requestsOf, isMarker]
    | error e => simp [handleResponse, renderBody, h, hpj, markers, requestsOf, isMarker]
  · simp [handleResponse, h, markers, requestsOf, isMarker]

theorem sendAndHandle_trace (ext : Ext) (req : RequestShape) :
    markers (sendAndHandle ext req).1 = [Ev.httpRequest req] ∧
    requestsOf (sendAndHandle ext req).1 = [req] := by
  cases hs : ext.send req with
  | error e => simp [sendAndHandle, hs, markers, requestsOf, isMarker]
  | ok resp =>
    obtain ⟨h1, h2⟩ := handleResponse_trace ext resp
    constructor
    · simp only [sendAndHandle, hs, markers, List.filter_cons]
      simp only [markers] at h1
      simp [isMarker, h1]
    · simp only [sendAndHandle, hs, requestsOf, List.filterMap_cons]
      simp only [requestsOf] at h2
      simp [h2]

theorem planAndSend_trace (ext : Ext) (o : Opt) :
    (markers (planAndSend ext o).1 = [] ∧ requestsOf (planAndSend ext o).1 = []) ∨
    (∃ r, markers (planAndSend ext o).1 = [Ev.httpRequest r] ∧
      requestsOf (planAndSend ext o).1 = [r]) := by
  cases hj : o.json with
  | some jd =>
    cases hpj : ext.parseJson jd with
    | error e =>
      left
      simp [planAndSend, hj, hpj, markers, requestsOf]
    | ok v =>
      right
      refine ⟨RequestShape.postJson o.url "application/json" jd, ?_⟩
      simp only [planAndSend, hj, hpj]
      exact sendAndHandle_trace ext _
  | none =>
    cases hm : (o.method == "POST") with
    | true =>
      cases hd : o.data with
      | some d =>
        cases hbf : buildFormPairs d.data with
        | none =>
          left
          simp [planAndSend, hj, hm, hd, hbf, markers, requestsOf]
        | some ps =>
          right
          refine ⟨RequestShape.postForm o.url ps, ?_⟩
          simp only [planAndSend, hj, hm, hd, hbf, if_pos]
          exact sendAndHandle_trace ext _
      | none =>
        left
        simp [planAndSend, hj, hm, hd, markers, requestsOf, isMarker]
    | false =>
      right
      refine ⟨RequestShape.get o.url, ?_⟩
      simp only [planAndSend, hj, hm, Bool.false_eq_true, if_false]
      exact sendAndHandle_trace ext _

/-- The scheme-guard pass condition: the raw URL starts with one of the
two accepted prefixes. -/
def schemePass (url : String) : Prop :=
  strStartsWith url "http://" = true ∨ strStartsWith url "https://" = true

theorem run_scheme_fail (ext : Ext) (o : Opt)
    (h1 : strStartsWith o.url "http://" = false)
    (h2 : strStartsWith o.url "https://" = false) :
    run ext o =
      (preLines o ++ [Ev.out "Error: The URL does not have a valid base protocol."],
        Outcome.exit 1) := by
  simp [run, h1, h2]

theorem run_parse_error (ext : Ext) (o : Opt) (e : String)
    (hs : schemePass o.url) (he : ext.parseUrl o.url = Except.error e) :
    run ext o =
      (preLines o ++ [Ev.schemeOk, Ev.out (classifyUrlError e)], Outcome.exit 1) := by
  rcases hs with h | h <;> simp [run, h, he]

theorem run_resolve_fail (ext : Ext) (o : Opt) (u : UrlRec) (h : String)
    (hs : schemePass o.url) (hu : ext.parseUrl o.url = Except.ok u)
    (hh : u.host = some h)
    (hr : ext.resolves (h ++ ":" ++ toString (u.port.getD 80)) = false) :
    run ext o =
      (preLines o ++ [Ev.schemeOk, Ev.urlParseOk,
        Ev.resolveProbe (h ++ ":" ++ toString (u.port.getD 80)),
        Ev.out "Error: Unable to connect to the server. Perhaps the network is offline or the server hostname cannot be resolved."],
        Outcome.exit 1) := by
  rcases hs with hp | hp <;> simp [run, hp, hu, hh, hr]

theorem run_resolve_ok (ext : Ext) (o : Opt) (u : UrlRec) (h : String)
    (hs : schemePass o.url) (hu : ext.parseUrl o.url = Except.ok u)
    (hh : u.host = some h)
    (hr : ext.resolves (h ++ ":" ++ toString (u.port.getD 80)) = true) :
    run ext o =
      (preLines o ++ [Ev.schemeOk, Ev.urlParseOk,
        Ev.resolveProbe (h ++ ":" ++ toString (u.port.getD 80))]
        ++ (planAndSend ext o).1, (planAndSend ext o).2) := by
  rcases hs with hp | hp <;> simp [run, hp, hu, hh, hr]

theorem run_host_none (ext : Ext) (o : Opt) (u : UrlRec)
    (hs : schemePass o.url) (hu : ext.parseUrl o.url = Except.ok u)
    (hh : u.host = none) :
    run ext o =
      (preLines o ++ [Ev.schemeOk, Ev.urlParseOk] ++ (planAndSend ext o).1,
        (planAndSend ext o).2) := by
  rcases hs with hp | hp <;> simp [run, hp, hu, hh]

theorem runRequests_pass (ext : Ext) (o : Opt) (hs : schemePass o.url) :
    runRequests ext o = [] ∨ runRequests ext o = requestsOf (planAndSend ext o).1 := by
  cases hu : ext.parseUrl o.url with
  | error e =>
    left
    rw [runRequests, run_parse_error ext o e hs hu]
    simp only [requestsOf_append, requestsOf_preLines]
    simp [requestsOf]
  | ok u =>
    cases hh : u.host with
    | none =>
      right
      rw [runRequests, run_host_none ext o u hs hu hh]
      simp only [requestsOf_append, requestsOf_preLines]
      simp [requestsOf]
    | some h =>
      cases hr : ext.resolves (h ++ ":" ++ toString (u.port.getD 80)) with
      | false =>
        left
        rw [runRequests, run_resolve_fail ext o u h hs hu hh hr]
        simp only [requestsOf_append, requestsOf_preLines]
        simp [requestsOf]
      | true =>
        right
        rw [runRequests, run_resolve_ok ext o u h hs hu hh hr]
        simp only [requestsOf_append, requestsOf_preLines]
        simp [requestsOf]

theorem runRequests_cases (ext : Ext) (o : Opt) :
    runRequests ext o = [] ∨ runRequests ext o = requestsOf (planAndSend ext o).1 := by
  cases hb1 : strStartsWith o.url "http://" with
  | true => exact runRequests_pass ext o (Or.inl hb1)
  | false =>
    cases hb2 : strStartsWith o.url "https://" with
    | true => exact runRequests_pass ext o (Or.inr hb2)
    | false =>
      left
      rw [runRequests, run_scheme_fail ext o hb1 hb2]
      simp only [requestsOf_append, requestsOf_preLines]
      simp [requestsOf]

theorem markers_run_sublist_pass (ext : Ext) (o : Opt) (hs : schemePass o.url) :
    ∃ a r, List.Sublist (markers (run ext o).1)
      [Ev.schemeOk, Ev.urlParseOk, Ev.resolveProbe a, Ev.httpRequest r] := by
  cases hu : ext.parseUrl o.url with
  | error e =>
    refine ⟨"", RequestShape.get "", ?_⟩
    rw [run_parse_error ext o e hs hu]
    simp only [markers_append, markers_preLines, List.nil_append]
    exact List.Sublist.cons₂ _ (List.nil_sublist _)
  | ok u =>
    cases hh : u.host with
    | none =>
      rcases planAndSend_trace ext o with ⟨h1, _⟩ | ⟨r, h1, _⟩
      · refine ⟨"", RequestShape.get "", ?_⟩
        rw [run_host_none ext o u hs hu hh]
        simp only [markers_append, markers_preLines, List.nil_append, h1, List.append_nil]
        exact List.Sublist.cons₂ _ (List.Sublist.cons₂ _ (List.nil_sublist _))
      · refine ⟨"", r, ?_⟩
        rw [run_host_none ext o u hs hu hh]
        simp only [markers_append, markers_preLines, List.nil_append, h1]
        exact List.Sublist.cons₂ _ (List.Sublist.cons₂ _
          (List.Sublist.cons _ (List.Sublist.cons₂ _ List.Sublist.slnil)))
    | some h =>
      cases hr : ext.resolves (h ++ ":" ++ toString (u.port.getD 80)) with
      | false =>
        refine ⟨h ++ ":" ++ toString (u.port.getD 80), RequestShape.get "", ?_⟩
        rw [run_resolve_fail ext o u h hs hu hh hr]
        simp only [markers_append, markers_preLines, List.nil_append]
        exact List.Sublist.cons₂ _ (List.Sublist.cons₂ _
          (List.Sublist.cons₂ _ (List.nil_sublist _)))
      | true =>
        rcases planAndSend_trace ext o with ⟨h1, _⟩ | ⟨r, h1, _⟩
        · refine ⟨h ++ ":" ++ toString (u.port.getD 80), RequestShape.get "", ?_⟩
          rw [run_resolve_ok ext o u h hs hu hh hr]
          simp only [markers_append, markers_preLines, List.nil_append, h1, List.append_nil]
          exact List.Sublist.cons₂ _ (List.Sublist.cons₂ _
            (List.Sublist.cons₂ _ (List.nil_sublist _)))
        · refine ⟨h ++ ":" ++ toString (u.port.getD 80), r, ?_⟩
          rw [run_resolve_ok ext o u h hs hu hh hr]
          simp only [markers_append, markers_preLines, List.nil_append, h1]
          exact List.Sublist.refl _

theorem markers_run_sublist (ext : Ext) (o : Opt) :
    ∃ a r, List.Sublist (markers (run ext o).1)
      [Ev.schemeOk, Ev.urlParseOk, Ev.resolveProbe a, Ev.httpRequest r] := by
  cases hb1 : strStartsWith o.url "http://" with
  | true => exact markers_run_sublist_pass ext o (Or.inl hb1)
  | false =>
    cases hb2 : strStartsWith o.url "https://" with
    | true => exact markers_run_sublist_pass ext o (Or.inr hb2)
    | false =>
      refine ⟨"", RequestShape.get "", ?_⟩
      rw [run_scheme_fail ext o hb1 hb2]
      simp only [markers_append, markers_preLines, List.nil_append]
      exact List.nil_sublist _

/-- Every URL accepted by the scheme guard starts with the four
characters `http`. -/
theorem schemePass_take_four {u : String} (hs : schemePass u) :
    u.data.take 4 = "http".data := by
  rcases hs with h | h
  · unfold strStartsWith at h
    obtain ⟨t, ht⟩ := List.isPrefixOf_iff_prefix.mp h
    rw [← ht, List.take_append_of_le_length (by decide)]
    decide
  · unfold strStartsWith at h
    obtain ⟨t, ht⟩ := List.isPrefixOf_iff_prefix.mp h
    rw [← ht, List.take_append_of_le_length (by decide)]
    decide

/-- After trimming, the last character (if any) is not whitespace, so
the trimmed body never ends in a newline. -/
theorem rustTrimEnd_last_not_whitespace (s : String) :
    ∀ c, (rustTrimEnd s).data.getLast? = some c → c.isWhitespace = false := by
  intro c hc
  have hc' : c ∈ (List.rdropWhile Char.isWhitespace s.data).getLast? := by
    exact Option.mem_def.mpr hc
  obtain ⟨hne, hceq⟩ := List.mem_getLast?_eq_getLast hc'
  have hnp := List.rdropWhile_last_not Char.isWhitespace s.data hne
  rw [← hceq] at hnp
  exact Bool.not_eq_true _ ▸ Bool.of_not_eq_true hnp

/-! ### Concrete oracles used by the witnesses -/

/-- An oracle where everything succeeds, the response is `200` with a
non-JSON body, and JSON parsing always fails. -/
def extOkNonJson : Ext where
  parseUrl := fun _ => Except.ok ⟨some "x", none⟩
  resolves := fun _ => true
  parseJson := fun _ => Except.error "not json"
  send := fun _ => Except.ok ⟨200, "ok\n\n"⟩
  pretty := fun _ => Except.ok "PP"

/-- An oracle whose server answers `404`. -/
def ext404 : Ext where
  parseUrl := fun _ => Except.ok ⟨some "x", none⟩
  resolves := fun _ => true
  parseJson := fun _ => Except.error "not json"
  send := fun _ => Except.ok ⟨404, "nf"⟩
  pretty := fun _ => Except.ok "PP"

/-- An oracle whose resolver always fails, with a parsed URL carrying a
host and no explicit port. -/
def extNoResolve : Ext where
  parseUrl := fun _ => Except.ok ⟨some "example.com", none⟩
  resolves := fun _ => false
  parseJson := fun _ => Except.error "not json"
  send := fun _ => Except.ok ⟨200, "ok"⟩
  pretty := fun _ => Except.ok "PP"

theorem planAndSend_requests_json (ext : Ext) (o : Opt) (jd : String)
    (hj : o.json = some jd) :
    requestsOf (planAndSend ext o).1 = [] ∨
    requestsOf (planAndSend ext o).1 =
      [RequestShape.postJson o.url "application/json" jd] := by
  cases hpj : ext.parseJson jd with
  | error e =>
    left
    simp [planAndSend, hj, hpj, requestsOf]
  | ok v =>
    right
    simp only [planAndSend, hj, hpj]
    exact (sendAndHandle_trace ext _).2

theorem planAndSend_requests_get (ext : Ext) (o : Opt)
    (hj : o.json = none) (hm : (o.method == "POST") = false) :
    requestsOf (planAndSend ext o).1 = [RequestShape.get o.url] := by
  simp only [planAndSend, hj, hm, Bool.false_eq_true, if_false]
  exact (sendAndHandle_trace ext _).2

/-! ### The claims -/

/-- C1 (counterexample): with `--json` absent the effective method is
NOT the uppercased `-X` value: for `-X post` the effective method stays
`post` (the uppercased value would be `POST`), and the invocation issues
a GET request, not a POST. -/
theorem c1_counterexample :
    effectiveMethod none "post" = "post" ∧
    "post".data.map Char.toUpper = "POST".data ∧
    (effectiveMethod none "post").data ≠ "post".data.map Char.toUpper ∧
    runRequests extOkNonJson ⟨"http://x/", "post", some "a=1", none⟩ =
      [RequestShape.get "http://x/"] := by
  refine ⟨rfl, by decide, by decide, by decide⟩

/-- C1 (amended): with `--json` present the effective method is `POST`
(and any issued request is the JSON POST); with `--json` absent the
effective method is the `-X`/`--request` string verbatim, with no
uppercasing, and any method other than the exact string `POST` issues a
GET request. -/
theorem c1_amended (ext : Ext) (u m : String) (d : Option String) (j : String)
    (hm : m ≠ "POST") :
    effectiveMethod (some j) m = "POST" ∧
    effectiveMethod none m = m ∧
    (∀ r ∈ runRequests ext ⟨u, m, d, some j⟩,
      ∃ b, r = RequestShape.postJson u "application/json" b) ∧
    (∀ r ∈ runRequests ext ⟨u, m, d, none⟩, r = RequestShape.get u) := by
  refine ⟨rfl, rfl, ?_, ?_⟩
  · intro r hr
    rcases runRequests_cases ext ⟨u, m, d, some j⟩ with h | h
    · rw [h] at hr
      cases hr
    · rw [h] at hr
      rcases planAndSend_requests_json ext ⟨u, m, d, some j⟩ j rfl with h2 | h2
      · rw [h2] at hr
        cases hr
      · rw [h2] at hr
        rcases List.mem_singleton.mp hr with rfl
        exact ⟨j, rfl⟩
  · intro r hr
    rcases runRequests_cases ext ⟨u, m, d, none⟩ with h | h
    · rw [h] at hr
      cases hr
    · rw [h, planAndSend_requests_get ext ⟨u, m, d, none⟩ rfl
        (beq_eq_false_iff_ne.mpr hm)] at hr
      exact List.mem_singleton.mp hr

/-- C1 (witness). -/
theorem c1_amended_witness :
    ("post" : String) ≠ "POST" ∧ effectiveMethod none "post" = "post" :=
  ⟨by decide,
    (c1_amended extOkNonJson "http://x/" "post" (some "a=1") "1" (by decide)).2.1⟩

/-- C2 (counterexample): the token `k=a=b` does not yield the pair
`(k, a=b)`; the value is only the fragment between the first and second
`=`, so it yields `(k, a)`. -/
theorem c2_counterexample :
    buildFormPairs "k=a=b".data = some [("k".data, "a".data)] ∧
    buildFormPairs "k=a=b".data ≠ some [("k".data, "a=b".data)] := by
  refine ⟨by decide, by decide⟩

/-- C2 (amended): with every `&`-separated token containing `=`, the
planned pairs are, in token order, one pair per token, whose key is the
part before the first `=` and whose value is the fragment strictly
between the first and the second `=` (the remainder after a second `=`
is discarded). -/
theorem c2_amended (d : Str) (h : ∀ t ∈ splitChar '&' d, '=' ∈ t) :
    buildFormPairs d = some ((splitChar '&' d).map firstTwoFragments) ∧
    (∀ ps, buildFormPairs d = some ps →
      ps.length = (splitChar '&' d).length) := by
  refine ⟨buildFormPairs_of_all h, ?_⟩
  intro ps hps
  rw [buildFormPairs_of_all h] at hps
  cases hps
  exact List.length_map _ _

/-- C2 (witness). -/
theorem c2_amended_witness :
    (∀ t ∈ splitChar '&' "a=1&b=2".data, '=' ∈ t) ∧
    buildFormPairs "a=1&b=2".data =
      some ((splitChar '&' "a=1&b=2".data).map firstTwoFragments) :=
  ⟨by decide, (c2_amended ("a=1&b=2".data) (by decide)).1⟩

/-- C3 (confirmed): when the body parses as a JSON object (whose keys,
coming from a JSON map, are distinct), the rendered sorted object has
its top-level keys in strictly ascending codepoint order and is a
permutation of the original fields (same keys, each bound to its
original value, so the sort is shallow); when the body parses as any
non-object JSON value the rendered object is empty. -/
theorem c3_sorted_object (fields : List (String × Json)) (j : Json)
    (hnd : (fields.map Prod.fst).Nodup) :
    ((sortedTopLevel (Json.obj fields)).map Prod.fst).Sorted (· < ·) ∧
    (sortedTopLevel (Json.obj fields)).Perm fields ∧
    ((∀ f, j ≠ Json.obj f) → sortedTopLevel j = []) :=
  ⟨sortedTopLevel_keys_sorted hnd, sortedTopLevel_perm hnd,
    sortedTopLevel_non_obj j⟩

/-- C3 (witness). -/
theorem c3_sorted_object_witness :
    (sortedTopLevel (Json.obj [("b", Json.num 2), ("a", Json.num 1)])).Perm
      [("b", Json.num 2), ("a", Json.num 1)] :=
  (c3_sorted_object [("b", Json.num 2), ("a", Json.num 1)] (Json.arr [])
    (by decide)).2.1

/-- C4 (counterexample): the non-2xx error path of §7 does issue an HTTP
request: with a server answering 404, the process exits 1 with the
status diagnostic, yet exactly one GET request was issued, refuting "no
HTTP request is issued" for every error path. -/
theorem c4_counterexample :
    (run ext404 ⟨"http://x/", "GET", none, none⟩).2 = Outcome.exit 1 ∧
    (run ext404 ⟨"http://x/", "GET", none, none⟩).1.getLast? =
      some (Ev.out "Error: Request failed with status code: 404.") ∧
    runRequests ext404 ⟨"http://x/", "GET", none, none⟩ =
      [RequestShape.get "http://x/"] := by
  refine ⟨by decide, by decide, by decide⟩

/-- C4 (amended): the pre-flight error paths (scheme, URL parse,
resolution, invalid `--json` argument, POST without data) terminate as
the table specifies — exit 1, or a panic for the invalid JSON argument —
with no HTTP request issued; a transport failure aborts abnormally
during the single request; the non-2xx and pretty-print failure paths
exit 1 after the single request has been issued; and the stage markers
of every trace form a subsequence of scheme-check, URL-parse,
resolution probe, HTTP request, so URL validation precedes the
resolution probe, which precedes the at-most-one HTTP request. -/
theorem c4_amended (ext : Ext) (o : Opt) :
    (∃ a r, List.Sublist (markers (run ext o).1)
      [Ev.schemeOk, Ev.urlParseOk, Ev.resolveProbe a, Ev.httpRequest r]) ∧
    (strStartsWith o.url "http://" = false → strStartsWith o.url "https://" = false →
      (run ext o).2 = Outcome.exit 1 ∧ runRequests ext o = []) ∧
    (∀ e, schemePass o.url → ext.parseUrl o.url = Except.error e →
      (run ext o).2 = Outcome.exit 1 ∧ runRequests ext o = []) ∧
    (∀ u h, schemePass o.url → ext.parseUrl o.url = Except.ok u → u.host = some h →
      ext.resolves (h ++ ":" ++ toString (u.port.getD 80)) = false →
      (run ext o).2 = Outcome.exit 1 ∧ runRequests ext o = []) ∧
    (∀ jd e, o.json = some jd → ext.parseJson jd = Except.error e →
      (planAndSend ext o).2 = Outcome.panic ("Invalid JSON: Error(\"" ++ e ++ "\")") ∧
      requestsOf (planAndSend ext o).1 = []) ∧
    (o.json = none → o.method = "POST" → o.data = none →
      (planAndSend ext o).2 = Outcome.exit 1 ∧ requestsOf (planAndSend ext o).1 = []) ∧
    (∀ r e, ext.send r = Except.error e →
      sendAndHandle ext r = ([Ev.httpRequest r], Outcome.errReturn e)) ∧
    (∀ r resp, ext.send r = Except.ok resp →
      ¬ (200 ≤ resp.status ∧ resp.status < 300) →
      sendAndHandle ext r = ([Ev.httpRequest r,
        Ev.out ("Error: Request failed with status code: " ++ toString resp.status ++ ".")],
        Outcome.exit 1)) ∧
    (∀ r resp j e, ext.send r = Except.ok resp →
      (200 ≤ resp.status ∧ resp.status < 300) →
      ext.parseJson resp.body = Except.ok j →
      ext.pretty (sortedTopLevel j) = Except.error e →
      sendAndHandle ext r = ([Ev.httpRequest r,
        Ev.out ("Error: Failed to format JSON: " ++ e)], Outcome.exit 1)) := by
  refine ⟨markers_run_sublist ext o, ?_, ?_, ?_, ?_, ?_, ?_, ?_, ?_⟩
  · intro h1 h2
    constructor
    · rw [run_scheme_fail ext o h1 h2]
    · rw [runRequests, run_scheme_fail ext o h1 h2]
      simp only [requestsOf_append, requestsOf_preLines]
      simp [requestsOf]
  · intro e hs he
    constructor
    · rw [run_parse_error ext o e hs he]
    · rw [runRequests, run_parse_error ext o e hs he]
      simp only [requestsOf_append, requestsOf_preLines]
      simp [requestsOf]
  · intro u h hs hu hh hr
    constructor
    · rw [run_resolve_fail ext o u h hs hu hh hr]
    · rw [runRequests, run_resolve_fail ext o u h hs hu hh hr]
      simp only [requestsOf_append, requestsOf_preLines]
      simp [requestsOf]
  · intro jd e hj hpj
    constructor
    · simp [planAndSend, hj, hpj]
    · simp [planAndSend, hj, hpj, requestsOf]
  · intro hj hm hd
    constructor
    · simp [planAndSend, hj, hm, hd]
    · simp [planAndSend, hj, hm, hd, requestsOf, isMarker]
  · intro r e hse
    simp [sendAndHandle, hse]
  · intro r resp hse hns
    simp [sendAndHandle, hse, handleResponse, hns]
  · intro r resp j e hse h2 hpj hp
    simp [sendAndHandle, hse, handleResponse, h2, renderBody, hpj, hp]

/-- C4 (witness). -/
theorem c4_amended_witness :
    sendAndHandle ext404 (RequestShape.get "http://x/") =
      ([Ev.httpRequest (RequestShape.get "http://x/"),
        Ev.out "Error: Request failed with status code: 404."], Outcome.exit 1) :=
  (c4_amended ext404 ⟨"http://x/", "GET", none, none⟩).2.2.2.2.2.2.2.1
    (RequestShape.get "http://x/") ⟨404, "nf"⟩ rfl (by decide)

/-- C5 (confirmed): a URL that does not begin verbatim with `http://` or
`https://` makes the program print exactly the base-protocol diagnostic
after the echo lines and exit 1, with no URL-parse, resolution or
request activity in the trace; and every URL accepted by the guard has
`http` as its first four characters. -/
theorem c5_scheme_guard (ext : Ext) (o : Opt)
    (h1 : strStartsWith o.url "http://" = false)
    (h2 : strStartsWith o.url "https://" = false) :
    run ext o = (preLines o ++
      [Ev.out "Error: The URL does not have a valid base protocol."], Outcome.exit 1) ∧
    markers (run ext o).1 = [] ∧
    (∀ u : String, schemePass u → u.data.take 4 = "http".data) := by
  refine ⟨run_scheme_fail ext o h1 h2, ?_, fun u hu => schemePass_take_four hu⟩
  rw [run_scheme_fail ext o h1 h2]
  simp only [markers_append, markers_preLines, List.nil_append]
  rfl

/-- C5 (witness): `example.com` is rejected by the scheme guard. -/
theorem c5_scheme_guard_witness :
    run extOkNonJson ⟨"example.com", "GET", none, none⟩ =
      ([Ev.out "Requesting URL: example.com", Ev.out "Method: GET",
        Ev.out "Error: The URL does not have a valid base protocol."],
        Outcome.exit 1) :=
  (c5_scheme_guard extOkNonJson ⟨"example.com", "GET", none, none⟩
    (by decide) (by decide)).1

/-- C6 (confirmed): with `--json` given, an argument the JSON codec
rejects makes the program panic with the `Invalid JSON: Error("...")`
message before any request is issued; an argument it accepts leads to
exactly one POST request with the explicit `Content-Type:
application/json` header and a body byte-identical to the argument. -/
theorem c6_json_handling (ext : Ext) (o : Opt) (jd : String)
    (hj : o.json = some jd) :
    (∀ e, ext.parseJson jd = Except.error e →
      planAndSend ext o =
        ([], Outcome.panic ("Invalid JSON: Error(\"" ++ e ++ "\")"))) ∧
    (∀ v, ext.parseJson jd = Except.ok v →
      requestsOf (planAndSend ext o).1 =
        [RequestShape.postJson o.url "application/json" jd]) := by
  constructor
  · intro e hpj
    simp [planAndSend, hj, hpj]
  · intro v hpj
    simp only [planAndSend, hj, hpj]
    exact (sendAndHandle_trace ext _).2

/-- C6 (witness). -/
theorem c6_json_handling_witness :
    planAndSend extOkNonJson ⟨"http://x/", "GET", none, some "oops"⟩ =
      ([], Outcome.panic "Invalid JSON: Error(\"not json\")") :=
  (c6_json_handling extOkNonJson ⟨"http://x/", "GET", none, some "oops"⟩
    "oops" rfl).1 "not json" rfl

/-- C7 (confirmed): a response outside the 2xx range is answered by
exactly the status diagnostic and exit 1, with nothing of the body
rendered; a 2xx response has its body rendered and, the pretty printer
being total on string-keyed maps, the process exits 0. -/
theorem c7_status_gate (ext : Ext) (resp : Response)
    (hp : ∀ l, ∃ s, ext.pretty l = Except.ok s) :
    (¬ (200 ≤ resp.status ∧ resp.status < 300) →
      handleResponse ext resp =
        ([Ev.out ("Error: Request failed with status code: " ++
          toString resp.status ++ ".")], Outcome.exit 1)) ∧
    ((200 ≤ resp.status ∧ resp.status < 300) →
      handleResponse ext resp = renderBody ext resp.body ∧
      (handleResponse ext resp).2 = Outcome.success) := by
  constructor
  · intro hns
    simp [handleResponse, hns]
  · intro h2
    have hhr : handleResponse ext resp = renderBody ext resp.body := by
      simp [handleResponse, h2]
    refine ⟨hhr, ?_⟩
    rw [hhr]
    cases hpj : ext.parseJson resp.body with
    | error e => simp [renderBody, hpj]
    | ok j =>
      obtain ⟨s, hs⟩ := hp (sortedTopLevel j)
      simp [renderBody, hpj, hs]

/-- C7 (witness). -/
theorem c7_status_gate_witness :
    handleResponse extOkNonJson ⟨404, "nf"⟩ =
      ([Ev.out "Error: Request failed with status code: 404."],
        Outcome.exit 1) :=
  (c7_status_gate extOkNonJson ⟨404, "nf"⟩ (fun _ => ⟨"PP", rfl⟩)).1 (by decide)

/-- C8 (confirmed): when the parsed URL carries a host, the probed
address is `host:port` with the explicit port if the URL has one and
the literal 80 otherwise, independent of the scheme; on resolution
failure the program prints exactly the connectivity diagnostic and
exits 1 with no request issued, and on success the probe event is in
the trace and the addresses are not otherwise used. -/
theorem c8_resolution (ext : Ext) (o : Opt) (u : UrlRec) (h : String)
    (hs : schemePass o.url) (hu : ext.parseUrl o.url = Except.ok u)
    (hh : u.host = some h) :
    (ext.resolves (h ++ ":" ++ toString (u.port.getD 80)) = false →
      run ext o = (preLines o ++ [Ev.schemeOk, Ev.urlParseOk,
        Ev.resolveProbe (h ++ ":" ++ toString (u.port.getD 80)),
        Ev.out "Error: Unable to connect to the server. Perhaps the network is offline or the server hostname cannot be resolved."],
        Outcome.exit 1) ∧ runRequests ext o = []) ∧
    (ext.resolves (h ++ ":" ++ toString (u.port.getD 80)) = true →
      Ev.resolveProbe (h ++ ":" ++ toString (u.port.getD 80)) ∈ (run ext o).1) := by
  constructor
  · intro hr
    refine ⟨run_resolve_fail ext o u h hs hu hh hr, ?_⟩
    rw [runRequests, run_resolve_fail ext o u h hs hu hh hr]
    simp only [requestsOf_append, requestsOf_preLines]
    simp [requestsOf]
  · intro hr
    rw [run_resolve_ok ext o u h hs hu hh hr]
    simp

/-- C8 (witness): `https://example.com/` with no explicit port probes
`example.com:80`, not port 443. -/
theorem c8_resolution_witness :
    run extNoResolve ⟨"https://example.com/", "GET", none, none⟩ =
      ([Ev.out "Requesting URL: https://example.com/", Ev.out "Method: GET",
        Ev.schemeOk, Ev.urlParseOk, Ev.resolveProbe "example.com:80",
        Ev.out "Error: Unable to connect to the server. Perhaps the network is offline or the server hostname cannot be resolved."],
        Outcome.exit 1) :=
  ((c8_resolution extNoResolve ⟨"https://example.com/", "GET", none, none⟩
    ⟨some "example.com", none⟩ "example.com" (Or.inr (by decide)) rfl rfl).1 rfl).1

/-- C9 (confirmed): a body the JSON codec rejects is rendered as the
header line `Response body:` followed on the next line by the body with
trailing whitespace removed; after trimming, the last character (when
one exists) is not whitespace, so the rendered output carries no
trailing newline beyond the one separating the header from the body. -/
theorem c9_nonjson_render (ext : Ext) (body e : String)
    (h : ext.parseJson body = Except.error e) :
    renderBody ext body =
      ([Ev.out ("Response body:\n" ++ rustTrimEnd body)], Outcome.success) ∧
    (∀ c, (rustTrimEnd body).data.getLast? = some c → c.isWhitespace = false) := by
  refine ⟨?_, rustTrimEnd_last_not_whitespace body⟩
  simp [renderBody, h]

/-- C9 (witness): the body `ok` followed by two newlines renders as the
header plus `ok` with no trailing newline. -/
theorem c9_nonjson_render_witness :
    renderBody extOkNonJson "ok\n\n" =
      ([Ev.out "Response body:\nok"], Outcome.success) :=
  (c9_nonjson_render extOkNonJson "ok\n\n" "not json" rfl).1

/-- C10 (confirmed): in POST-form planning, the pair construction
succeeds (is panic-free) exactly when every `&`-separated token of the
data contains `=`, in which case it produces one pair per token and the
single POST-form request carries them; when some token lacks `=` —
including the empty data string, whose single token is empty — the
process terminates with the `unwrap`-on-`None` panic rather than a
clean exit. -/
theorem c10_form_pairs (ext : Ext) (o : Opt) (d : String)
    (hj : o.json = none) (hm : o.method = "POST") (hd : o.data = some d) :
    ((buildFormPairs d.data).isSome ↔ ∀ t ∈ splitChar '&' d.data, '=' ∈ t) ∧
    (∀ ps, buildFormPairs d.data = some ps →
      ps.length = (splitChar '&' d.data).length) ∧
    buildFormPairs "".data = none ∧
    ((∃ t ∈ splitChar '&' d.data, '=' ∉ t) →
      (planAndSend ext o).2 = Outcome.panicUnwrapNone) ∧
    (∀ ps, buildFormPairs d.data = some ps →
      requestsOf (planAndSend ext o).1 = [RequestShape.postForm o.url ps]) := by
  refine ⟨buildFormPairs_isSome_iff, ?_, by decide, ?_, ?_⟩
  · intro ps hps
    have hall : ∀ t ∈ splitChar '&' d.data, '=' ∈ t :=
      buildFormPairs_isSome_iff.mp (by rw [hps]; rfl)
    rw [buildFormPairs_of_all hall] at hps
    cases hps
    exact List.length_map _ _
  · intro hex
    have hnone : buildFormPairs d.data = none := by
      rcases hex with ⟨t, ht, hne⟩
      cases hb : buildFormPairs d.data with
      | none => rfl
      | some ps =>
        exact absurd (buildFormPairs_isSome_iff.mp (by rw [hb]; rfl) t ht) hne
    simp [planAndSend, hj, hm, hd, hnone]
  · intro ps hps
    simp only [planAndSend, hj, hm, hd, hps]
    have : (("POST" : String) == "POST") = true := by decide
    simp only [this, if_pos]
    exact (sendAndHandle_trace ext _).2

/-- C10 (witness): empty data panics. -/
theorem c10_form_pairs_witness :
    (∃ t ∈ splitChar '&' "".data, '=' ∉ t) ∧
    (planAndSend extOkNonJson ⟨"http://x/", "POST", some "", none⟩).2 =
      Outcome.panicUnwrapNone :=
  ⟨by decide,
    (c10_form_pairs extOkNonJson ⟨"http://x/", "POST", some "", none⟩ ""
      rfl rfl rfl).2.2.2.1 (by decide)⟩
end Curl
